import Mathlib

/-!
Verification of `src/multiprocesser.py`.

The script is a single linear sequence: print a start line, open a
`multiprocessing.Pool()` in a `with` block, run `pool.map(fun, range(1000000))`,
exit the block (tearing the pool down), print an end line, then print the
distinct process identifiers joined by a comma-and-space separator.

The embedding models a concrete run of the script by a `Pool` value: the list
of worker process identifiers the OS handed out, together with the scheduling
function that says which worker executed each submitted task.  Everything the
script computes from there is a pure function of that value.
-/

namespace Multiprocesser

/-- The number of tasks submitted by the script: `range(1000000)`. -/
def numTasks : Nat := 1000000

/-- Embedding of `def fun(x): return os.getpid()`.  The process identifier of
the executing worker is ambient OS state, so it is passed explicitly as `pid`;
the task argument `x` is the integer drawn from the range. -/
def fun_ (pid : Nat) (x : Int) : Nat := pid

/-- A concrete run of `multiprocessing.Pool()`: the worker processes actually
spawned (their OS process identifiers) and the scheduling decision of which
worker executed each submitted task index.  `assign` maps into `Fin pids.length`,
which also records that the pool spawns at least one worker.  `pids_pos` records
the OS guarantee that `os.getpid()` of a live process is a positive integer. -/
structure Pool where
  pids : List Nat
  assign : Nat → Fin pids.length
  pids_pos : ∀ p ∈ pids, 0 < p

/-- Embedding of `pool.map(fun, range(n))`: an ordered list of results, one per
task index in submission order; the result at position `i` is `fun` evaluated in
the worker that executed task `i`. -/
def poolMapFun (pool : Pool) (n : Nat) : List Nat :=
  (List.range n).map (fun i => fun_ (pool.pids.get (pool.assign i)) (Int.ofNat i))

/-- Embedding of `pool.map(fun, xs)` over an arbitrary finite iterable of
integers: tasks are the elements of `xs`, indexed by position. -/
def poolMapOn (pool : Pool) (xs : List Int) : List Nat :=
  xs.mapIdx (fun i x => fun_ (pool.pids.get (pool.assign i)) x)

/-- Embedding of line 10, `processes = pool.map(fun, range(1000000))`. -/
def run (pool : Pool) : List Nat := poolMapFun pool numTasks

/-- Embedding of `", ".join(map(str, set(results)))` (lines 12-13).  The set of
distinct values is modelled by `List.dedup`; Python leaves the iteration order
of a set unspecified, and no claim below depends on the order chosen here. -/
def summarize (results : List Nat) : String :=
  String.intercalate ", " (results.dedup.map toString)

/-- The third output line, from `print("PYTHON: process IDs: ", ", ".join(processes))`.
Python `print` with two arguments writes the first, a single separating space,
then the second. -/
def line3 (results : List Nat) : String :=
  "PYTHON: process IDs: " ++ " " ++ summarize results

/-- Observable events of the script, in program order: printed lines, pool
creation, execution of a task on a worker, pool teardown. -/
inductive Event where
  | printLine (s : String)
  | poolCreate (numWorkers : Nat)
  | taskRun (i : Nat) (pid : Nat)
  | poolDestroy

/-- The event trace of `__main__` (lines 7-13): start print; pool creation;
the million task executions of the blocking `pool.map`; pool teardown on
exiting the `with` block; end print; distinct-identifier print. -/
def mainTrace (pool : Pool) : List Event :=
  [Event.printLine "PYTHON: starting multiprocessing pool",
   Event.poolCreate pool.pids.length]
  ++ (List.range numTasks).map
      (fun i => Event.taskRun i (pool.pids.get (pool.assign i)))
  ++ [Event.poolDestroy,
      Event.printLine "PYTHON: ended multiprocessing pool",
      Event.printLine (line3 (run pool))]

/-- The lines written to standard output, in order: the print events of the trace. -/
def outputLines (pool : Pool) : List String :=
  (mainTrace pool).filterMap (fun e =>
    match e with
    | Event.printLine s => some s
    | _ => none)

/-- A concrete pool for evaluating the theorems: four workers with process
identifiers 1001-1004, tasks dealt round-robin. -/
def testPool : Pool where
  pids := [1001, 1002, 1003, 1004]
  assign := fun i => ⟨i % 4, Nat.mod_lt i (by decide)⟩
  pids_pos := by decide

/-! ### Helper lemmas about the trace and the map operations -/

/-- The trace has the two leading events, one event per task, and the three
trailing events. -/
theorem mainTrace_length (pool : Pool) : (mainTrace pool).length = numTasks + 5 := by
  rw [mainTrace, List.length_append, List.length_append, List.length_map,
    List.length_range]
  simp only [List.length_cons, List.length_nil]
  omega

/-- The trace written with its two leading events as explicit conses. -/
theorem mainTrace_cons (pool : Pool) :
    mainTrace pool =
      Event.printLine "PYTHON: starting multiprocessing pool" ::
      Event.poolCreate pool.pids.length ::
      ((List.range numTasks).map
        (fun i => Event.taskRun i (pool.pids.get (pool.assign i))) ++
       [Event.poolDestroy,
        Event.printLine "PYTHON: ended multiprocessing pool",
        Event.printLine (line3 (run pool))]) := by
  rw [mainTrace, List.append_assoc, List.cons_append, List.cons_append,
    List.nil_append]

/-- Event 0 of the trace is the start print. -/
theorem mainTrace_getElem_zero (pool : Pool) :
    (mainTrace pool)[0]? = some
      (Event.printLine "PYTHON: starting multiprocessing pool") := by
  rw [mainTrace_cons, List.getElem?_cons_zero]

/-- Event 1 of the trace is the pool creation. -/
theorem mainTrace_getElem_one (pool : Pool) :
    (mainTrace pool)[1]? = some (Event.poolCreate pool.pids.length) := by
  rw [mainTrace_cons, List.getElem?_cons_succ, List.getElem?_cons_zero]

/-- Events 2 through `numTasks + 1` of the trace are the task executions, in
submission order. -/
theorem mainTrace_getElem_task (pool : Pool) (j : Nat) (h2 : 2 ≤ j)
    (hlt : j < numTasks + 2) :
    (mainTrace pool)[j]? =
      some (Event.taskRun (j - 2) (pool.pids.get (pool.assign (j - 2)))) := by
  obtain ⟨k, rfl⟩ : ∃ k, j = k + 2 := ⟨j - 2, by omega⟩
  have hk : k < ((List.range numTasks).map
      (fun i => Event.taskRun i (pool.pids.get (pool.assign i)))).length := by
    rw [List.length_map, List.length_range]
    omega
  rw [Nat.add_sub_cancel, mainTrace_cons, List.getElem?_cons_succ,
    List.getElem?_cons_succ, List.getElem?_append, if_pos hk,
    List.getElem?_map, List.getElem?_range (by omega : k < numTasks)]
  rfl

/-- Event `numTasks + 2` of the trace is the pool teardown on exiting the
`with` block. -/
theorem mainTrace_getElem_destroy (pool : Pool) :
    (mainTrace pool)[numTasks + 2]? = some Event.poolDestroy := by
  have hlen : ((List.range numTasks).map
      (fun i => Event.taskRun i (pool.pids.get (pool.assign i)))).length ≤
        numTasks := by
    rw [List.length_map, List.length_range]
  rw [mainTrace_cons, List.getElem?_cons_succ, List.getElem?_cons_succ,
    List.getElem?_append_right hlen, List.length_map, List.length_range,
    Nat.sub_self, List.getElem?_cons_zero]

/-- Event `numTasks + 3` of the trace is the end print. -/
theorem mainTrace_getElem_end (pool : Pool) :
    (mainTrace pool)[numTasks + 3]? =
      some (Event.printLine "PYTHON: ended multiprocessing pool") := by
  have hlen : ((List.range numTasks).map
      (fun i => Event.taskRun i (pool.pids.get (pool.assign i)))).length ≤
        numTasks + 1 := by
    rw [List.length_map, List.length_range]
    omega
  rw [mainTrace_cons, List.getElem?_cons_succ, List.getElem?_cons_succ,
    List.getElem?_append_right hlen, List.length_map, List.length_range,
    Nat.add_sub_cancel_left, List.getElem?_cons_succ, List.getElem?_cons_zero]

/-- Event `numTasks + 4` of the trace is the distinct-identifier print. -/
theorem mainTrace_getElem_last (pool : Pool) :
    (mainTrace pool)[numTasks + 4]? =
      some (Event.printLine (line3 (run pool))) := by
  have hlen : ((List.range numTasks).map
      (fun i => Event.taskRun i (pool.pids.get (pool.assign i)))).length ≤
        numTasks + 2 := by
    rw [List.length_map, List.length_range]
    omega
  rw [mainTrace_cons, List.getElem?_cons_succ, List.getElem?_cons_succ,
    List.getElem?_append_right hlen, List.length_map, List.length_range,
    Nat.add_sub_cancel_left, List.getElem?_cons_succ, List.getElem?_cons_succ,
    List.getElem?_cons_zero]

/-- The start print occurs among the first `j` events, for any `j ≥ 1`. -/
theorem start_print_mem_take (pool : Pool) (j : Nat) (h1 : 1 ≤ j) :
    Event.printLine "PYTHON: starting multiprocessing pool" ∈
      (mainTrace pool).take j := by
  obtain ⟨m, rfl⟩ : ∃ m, j = m + 1 := ⟨j - 1, by omega⟩
  rw [mainTrace_cons, List.take_succ_cons]
  exact List.mem_cons_self _ _

/-- The end print occurs after position `j`, for any `j` in the task region. -/
theorem end_print_mem_drop (pool : Pool) (j : Nat) (hlt : j < numTasks + 2) :
    Event.printLine "PYTHON: ended multiprocessing pool" ∈
      (mainTrace pool).drop (j + 1) := by
  have hsplit : mainTrace pool =
      ([Event.printLine "PYTHON: starting multiprocessing pool",
        Event.poolCreate pool.pids.length]
        ++ (List.range numTasks).map
            (fun i => Event.taskRun i (pool.pids.get (pool.assign i))))
      ++ [Event.poolDestroy,
          Event.printLine "PYTHON: ended multiprocessing pool",
          Event.printLine (line3 (run pool))] := by
    rw [mainTrace]
  have hle : j + 1 ≤
      ([Event.printLine "PYTHON: starting multiprocessing pool",
        Event.poolCreate pool.pids.length]
        ++ (List.range numTasks).map
            (fun i => Event.taskRun i (pool.pids.get (pool.assign i)))).length := by
    rw [List.length_append, List.length_map, List.length_range]
    simp only [List.length_cons, List.length_nil]
    omega
  rw [hsplit, List.drop_append_of_le_length hle]
  exact List.mem_append_right _
    (List.mem_cons_of_mem _ (List.mem_cons_self _ _))

/-- `pool.map` over an arbitrary iterable only looks at positions, since the
task function discards its argument. -/
theorem poolMapOn_eq (pool : Pool) (xs : List Int) :
    poolMapOn pool xs =
      (List.range xs.length).map (fun i => pool.pids.get (pool.assign i)) := by
  apply List.ext_get
  · simp [poolMapOn]
  · intro i h1 h2
    simp only [poolMapOn] at h1 ⊢
    rw [List.get_mapIdx]
    · simp [fun_]
    · simpa using h1

/-- Filtering with a constantly-`none` function yields the empty list. -/
theorem filterMap_const_none {α β : Type} (l : List α) :
    l.filterMap (fun _ => (none : Option β)) = [] := by
  induction l with
  | nil => rfl
  | cons a t ih => simp [List.filterMap_cons, ih]

/-! ### The claims -/

/-- C1: `run` returns an ordered sequence of exactly `numTasks = 1000000`
integers, one per submitted task index in submission order; the element at
position `i` is the process identifier of the worker that executed task `i`,
so no task result is lost or duplicated. -/
theorem run_length_and_results (pool : Pool) :
    (run pool).length = numTasks ∧
    ∀ i, i < numTasks →
      (run pool)[i]? = some (pool.pids.get (pool.assign i)) := by
  constructor
  · rw [run, poolMapFun, List.length_map, List.length_range]
  · intro i hi
    rw [run, poolMapFun, List.getElem?_map, List.getElem?_range hi]
    rfl

/-- Witness for C1 at a concrete pool and index. -/
theorem run_length_and_results_witness :
    (run testPool).length = numTasks ∧ 5 < numTasks ∧
    (run testPool)[5]? = some (testPool.pids.get (testPool.assign 5)) :=
  ⟨(run_length_and_results testPool).1, by decide,
   (run_length_and_results testPool).2 5 (by decide)⟩

/-- C2: for every integer index, the task function returns the process
identifier of the executing process, and the index argument is never read:
the result is the same for any two indices. -/
theorem fun_returns_pid_and_ignores_index (pid : Nat) (x : Int) :
    fun_ pid x = pid ∧ ∀ y : Int, fun_ pid x = fun_ pid y :=
  ⟨rfl, fun _ => rfl⟩

/-- C3 counterexample: the claimed exact single-space form of the third line
is false.  `print` receives the label and the joined string as two arguments
and inserts a separating space between them, and the label itself already ends
with a space, so with distinct identifiers 1001-1004 the actual line carries
two spaces after the colon. -/
theorem line3_claimed_exact_form_false :
    line3 [1001, 1002, 1003, 1004] ≠
      "PYTHON: process IDs: 1001, 1002, 1003, 1004" ∧
    line3 [1001, 1002, 1003, 1004] =
      "PYTHON: process IDs:  1001, 1002, 1003, 1004" := by
  constructor
  · decide
  · decide

/-- C3 amended: the third line is the fixed label, then the single separating
space `print` inserts between its two arguments, then the textual
representations of the distinct identifiers joined by ", "; since the label
ends with a space, the line has two spaces after the colon, e.g.
`PYTHON: process IDs:  1001, 1002, 1003, 1004` on a host with 4 workers. -/
theorem line3_actual_format (results : List Nat) :
    line3 results =
      "PYTHON: process IDs:  " ++
        String.intercalate ", " (results.dedup.map toString) ∧
    line3 [1001, 1002, 1003, 1004] =
      "PYTHON: process IDs:  1001, 1002, 1003, 1004" := by
  constructor
  · rfl
  · decide

/-- C4: the program writes exactly three lines to standard output, in this
fixed order: the start-of-pool line, the end-of-pool line, then the
distinct-identifier line; no other output is produced. -/
theorem outputLines_exactly_three (pool : Pool) :
    outputLines pool =
      ["PYTHON: starting multiprocessing pool",
       "PYTHON: ended multiprocessing pool",
       line3 (run pool)] ∧
    (outputLines pool).length = 3 := by
  have h : outputLines pool =
      ["PYTHON: starting multiprocessing pool",
       "PYTHON: ended multiprocessing pool",
       line3 (run pool)] := by
    rw [outputLines, mainTrace, List.filterMap_append, List.filterMap_append,
      List.filterMap_map]
    rw [show ((fun e =>
        match e with
        | Event.printLine s => some s
        | _ => none) ∘ fun i => Event.taskRun i (pool.pids.get (pool.assign i)))
        = fun _ => (none : Option String) from rfl]
    rw [filterMap_const_none]
    rfl
  exact ⟨h, by rw [h]; rfl⟩

/-- C5: for every run with at least one task, the number of distinct
identifiers in the result collection is at least 1 and at most the number of
worker processes actually spawned in the pool; in particular this holds for
the program's own run of `numTasks` tasks. -/
theorem distinct_card_bounds (pool : Pool) (n : Nat) (h : 0 < n) :
    (1 ≤ (poolMapFun pool n).dedup.length ∧
      (poolMapFun pool n).dedup.length ≤ pool.pids.length) ∧
    (1 ≤ (run pool).dedup.length ∧
      (run pool).dedup.length ≤ pool.pids.length) := by
  have key : ∀ m : Nat, 0 < m →
      1 ≤ (poolMapFun pool m).dedup.length ∧
      (poolMapFun pool m).dedup.length ≤ pool.pids.length := by
    intro m hm
    constructor
    · have hne : poolMapFun pool m ≠ [] := by
        rw [poolMapFun, ne_eq, List.map_eq_nil_iff, List.range_eq_nil]
        omega
      have hd : (poolMapFun pool m).dedup ≠ [] :=
        fun hdd => hne ((List.dedup_eq_nil _).mp hdd)
      exact List.length_pos.mpr hd
    · have hsub : (poolMapFun pool m).toFinset ⊆ pool.pids.toFinset := by
        intro x hx
        rw [List.mem_toFinset] at hx ⊢
        rw [poolMapFun, List.mem_map] at hx
        obtain ⟨i, _, rfl⟩ := hx
        exact List.get_mem _ _ _
      calc (poolMapFun pool m).dedup.length
          = (poolMapFun pool m).toFinset.card := (List.card_toFinset _).symm
        _ ≤ pool.pids.toFinset.card := Finset.card_le_card hsub
        _ ≤ pool.pids.length := List.toFinset_card_le _
  have hrun := key numTasks (by decide)
  rw [← run] at hrun
  exact ⟨key n h, hrun⟩

/-- Witness for C5 at a concrete pool and a 3-task run. -/
theorem distinct_card_bounds_witness :
    0 < 3 ∧
    (1 ≤ (poolMapFun testPool 3).dedup.length ∧
      (poolMapFun testPool 3).dedup.length ≤ testPool.pids.length) :=
  ⟨by decide, (distinct_card_bounds testPool 3 (by decide)).1⟩

/-- C6: with a task count of 0, the result collection is empty, the
distinct-identifier set has cardinality 0, and the joined string is empty. -/
theorem zero_tasks_empty (pool : Pool) :
    poolMapFun pool 0 = [] ∧ (poolMapFun pool 0).dedup.length = 0 ∧
    summarize (poolMapFun pool 0) = "" :=
  ⟨rfl, rfl, rfl⟩

/-- C7: every element of the result collection is a positive integer. -/
theorem results_positive (pool : Pool) : ∀ x ∈ run pool, 0 < x := by
  intro x hx
  rw [run, poolMapFun, List.mem_map] at hx
  obtain ⟨i, _, rfl⟩ := hx
  exact pool.pids_pos _ (List.get_mem _ _ _)

/-- Witness for C7: result 0 of the concrete run is 1001, which is positive. -/
theorem results_positive_witness : 1001 ∈ run testPool ∧ 0 < 1001 := by
  have hm : (1001 : Nat) ∈ run testPool := by
    rw [run, poolMapFun, List.mem_map]
    exact ⟨0, List.mem_range.mpr (by decide), rfl⟩
  exact ⟨hm, results_positive testPool 1001 hm⟩

/-- C8: position `j` of the trace holds a task-execution event exactly when
it lies after the start print and the pool creation and before the teardown;
and every task-execution position is preceded by the start print and followed
by the end print, so the first status line is printed before any task runs
and the second only after every task has completed. -/
theorem prints_bracket_task_events (pool : Pool) (j : Nat) :
    ((∃ i p, (mainTrace pool)[j]? = some (Event.taskRun i p)) ↔
      2 ≤ j ∧ j < numTasks + 2) ∧
    ((∃ i p, (mainTrace pool)[j]? = some (Event.taskRun i p)) →
      Event.printLine "PYTHON: starting multiprocessing pool" ∈
        (mainTrace pool).take j ∧
      Event.printLine "PYTHON: ended multiprocessing pool" ∈
        (mainTrace pool).drop (j + 1)) := by
  have hiff : (∃ i p, (mainTrace pool)[j]? = some (Event.taskRun i p)) ↔
      2 ≤ j ∧ j < numTasks + 2 := by
    constructor
    · rintro ⟨i, p, hip⟩
      by_contra hcon
      push_neg at hcon
      have hcases : j = 0 ∨ j = 1 ∨ j = numTasks + 2 ∨ j = numTasks + 3 ∨
          j = numTasks + 4 ∨ numTasks + 5 ≤ j := by omega
      rcases hcases with rfl | rfl | rfl | rfl | rfl | hge
      · rw [mainTrace_getElem_zero] at hip
        exact Event.noConfusion (Option.some_inj.mp hip)
      · rw [mainTrace_getElem_one] at hip
        exact Event.noConfusion (Option.some_inj.mp hip)
      · rw [mainTrace_getElem_destroy] at hip
        exact Event.noConfusion (Option.some_inj.mp hip)
      · rw [mainTrace_getElem_end] at hip
        exact Event.noConfusion (Option.some_inj.mp hip)
      · rw [mainTrace_getElem_last] at hip
        exact Event.noConfusion (Option.some_inj.mp hip)
      · rw [List.getElem?_eq_none (by rw [mainTrace_length]; omega)] at hip
        exact Option.noConfusion hip
    · rintro ⟨h2, hlt⟩
      exact ⟨j - 2, pool.pids.get (pool.assign (j - 2)),
        mainTrace_getElem_task pool j h2 hlt⟩
  refine ⟨hiff, fun ht => ?_⟩
  obtain ⟨h2, hlt⟩ := hiff.mp ht
  exact ⟨start_print_mem_take pool j (by omega), end_print_mem_drop pool j hlt⟩

/-- Witness for C8 at position 2 of the concrete pool's trace. -/
theorem prints_bracket_task_events_witness :
    (2 ≤ 2 ∧ 2 < numTasks + 2) ∧
    Event.printLine "PYTHON: starting multiprocessing pool" ∈
      (mainTrace testPool).take 2 ∧
    Event.printLine "PYTHON: ended multiprocessing pool" ∈
      (mainTrace testPool).drop 3 := by
  have hc := prints_bracket_task_events testPool 2
  have ht := hc.1.mpr ⟨by decide, by decide⟩
  exact ⟨⟨by decide, by decide⟩, (hc.2 ht).1, (hc.2 ht).2⟩

/-- C9: the task function is a total function, deterministic in its argument
within a fixed worker, so the result of mapping it over any input iterable
depends only on the length of that iterable; the program's own run is the
instance at `range numTasks`. -/
theorem output_independent_of_input_values (pool : Pool) (xs ys : List Int)
    (h : xs.length = ys.length) :
    poolMapOn pool xs = poolMapOn pool ys ∧
    poolMapOn pool ((List.range numTasks).map Int.ofNat) = run pool ∧
    ∀ pid : Nat, ∀ x y : Int, fun_ pid x = fun_ pid y := by
  refine ⟨?_, ?_, fun _ _ _ => rfl⟩
  · rw [poolMapOn_eq, poolMapOn_eq, h]
  · rw [poolMapOn_eq, List.length_map, List.length_range, run, poolMapFun]
    rfl

/-- Witness for C9: two same-length input lists with different values give
identical outputs on the concrete pool. -/
theorem output_independent_of_input_values_witness :
    ([7, 9] : List Int).length = ([0, 1] : List Int).length ∧
    poolMapOn testPool [7, 9] = poolMapOn testPool [0, 1] :=
  ⟨rfl, (output_independent_of_input_values testPool [7, 9] [0, 1] rfl).1⟩

/-- C10: the pool teardown event (exiting the `with` block, releasing all
workers) occurs at position `numTasks + 2` of the trace, strictly before the
end-of-pool print at position `numTasks + 3`. -/
theorem pool_teardown_before_end_print (pool : Pool) :
    numTasks + 2 < numTasks + 3 ∧
    (mainTrace pool)[numTasks + 2]? = some Event.poolDestroy ∧
    (mainTrace pool)[numTasks + 3]? =
      some (Event.printLine "PYTHON: ended multiprocessing pool") :=
  ⟨by omega, mainTrace_getElem_destroy pool, mainTrace_getElem_end pool⟩

end Multiprocesser
